import Mathlib

/-!
Verification of the core logic of `script.py` (cross-seed seeding-limit
synchronizer for a torrent client).  Instants are modelled as integers
(seconds); durations in the cache-expiry check are `86400 * days` seconds,
mirroring `timedelta(days=...)`.  HTTP calls are modelled as oracles
(`Gateway`) returning `Option` (with `none` for the failure path in which
the Python helper returns `None`), and the observable actions of a cycle
are collected as a list of `Event`s.
-/

namespace Script

/-- A decoded cache value: either a string that `datetime.fromisoformat`
parses to an instant, or one it rejects (raising `ValueError`). -/
inductive CacheVal where
  | valid (t : ℤ)
  | invalid (s : String)
deriving DecidableEq

/-- Model of `datetime.fromisoformat` on a decoded cache value: `none`
models the `ValueError` raise. -/
def fromisoformat : CacheVal → Option ℤ
  | .valid t => some t
  | .invalid _ => none

/-- The in-memory cache: torrent hash to stored timestamp value
(a Python dict, so keys are unique; lookup takes the first match). -/
abbrev Cache := List (String × CacheVal)

/-- The state of the backing `torrent_cache.json` file: missing,
present but not decodable as JSON, or decoded to a mapping. -/
inductive CacheFile where
  | missing
  | undecodable
  | decoded (m : Cache)

/-- `read_cache` from the source: a missing file or a JSON decode error
yields the empty dictionary; otherwise the decoded mapping. -/
def read_cache : CacheFile → Cache
  | .missing => []
  | .undecodable => []
  | .decoded m => m

/-- `is_torrent_cached` from the source: if the hash is a key, parse the
stored timestamp and compare `now < cached_time + timedelta(days=days)`;
a missing key gives `False`.  A stored value that `fromisoformat`
rejects raises (`.error`), as in the source. -/
def is_torrent_cached (days : ℤ) (torrent_hash : String) (cache : Cache)
    (now : ℤ) : Except Unit Bool :=
  match cache.lookup torrent_hash with
  | none => .ok false
  | some v =>
    match fromisoformat v with
    | none => .error ()
    | some cached_time =>
      if now < cached_time + 86400 * days then .ok true else .ok false

/-- `cache_torrent` from the source: `cache[torrent_hash] = now` as a dict
assignment (replace the entry if the key is present, else add it). -/
def cache_torrent (torrent_hash : String) (now : ℤ) (cache : Cache) : Cache :=
  if cache.any (fun p => p.1 == torrent_hash) then
    cache.map (fun p => if p.1 == torrent_hash then (p.1, CacheVal.valid now) else p)
  else
    cache ++ [(torrent_hash, CacheVal.valid now)]

/-- Python `round` applied to `s / 60` (banker's rounding, ties to even),
as in `round(time_diff.total_seconds() / 60)` for an integer number of
seconds `s`. -/
def pyRound60 (s : ℤ) : ℤ :=
  let q := s / 60
  let r := s % 60
  if r < 30 then q
  else if 30 < r then q + 1
  else if q % 2 = 0 then q else q + 1

/-- `get_time_difference` from the source: boundary arithmetic on the
original's added-on instant plus its seeding-time limit in minutes,
minus the cross-seed's added-on instant, rounded to minutes; a
non-positive result becomes the sentinel `-1`. -/
def get_time_difference (original_added_on cross_added_on seeding_time_limit : ℤ) : ℤ :=
  let total_seconds := original_added_on + 60 * seeding_time_limit - cross_added_on
  let minutes_diff := pyRound60 total_seconds
  if minutes_diff ≤ 0 then -1 else minutes_diff

/-- A torrent record as read from the client's JSON: the fields the
script uses.  `ratio_limit` is `none` when the key is absent, matching
the source's `original_torrent.get("ratio_limit", -1)`. -/
structure Torrent where
  hash : String
  name : String
  category : String
  state : String
  added_on : ℤ
  seeding_time_limit : ℤ
  ratio_limit : Option ℤ
deriving DecidableEq

/-- `torrent["category"].split(".")[0]`, on the character list. -/
def takeBeforeDot : List Char → List Char
  | [] => []
  | ch :: rest => if ch = '.' then [] else ch :: takeBeforeDot rest

/-- The base category: the segment of the category string before the
first dot (the whole string when no dot occurs). -/
def baseCategory (c : String) : String :=
  String.mk (takeBeforeDot c.data)

/-- The torrent-client gateway as an oracle: `none` models the failure
path in which `get_torrents_by_tag` / `get_torrents_by_category`
returns `None` after a transport error or non-ok response. -/
structure Gateway where
  byTag : String → Option (List Torrent)
  byCategory : String → Option (List Torrent)

/-- The configuration the cycle reads: the tag list, the dry-run flag
and the cache expiry in days. -/
structure Config where
  tagNames : List String
  dryRun : Bool
  cacheExpiryDays : ℤ

/-- An observable action of one cycle of `main`. -/
inductive Event where
  | loginAttempt
  | taggedFetch (tag : String)
  | categoryFetch (cat : String)
  | applyLimits (hash : String) (seed_time ratio_lim : ℤ)
  | postLimits (hash : String) (seed_time ratio_lim : ℤ)
  | cacheWrite (hash : String)
  | noticeNoUpdates
deriving DecidableEq

/-- Gateway-level effect of `set_torrent_seed_limits`: in dry-run mode
the function returns before the POST; otherwise it issues the
`setShareLimits` POST. -/
def set_torrent_seed_limits (torrent_hash : String) (seed_time ratio_lim : ℤ)
    (dry_run : Bool) : List Event :=
  if dry_run then [] else [Event.postLimits torrent_hash seed_time ratio_lim]

/-- The running state of one `main` cycle: the in-memory cache, the
cumulative `updated` flag, the emitted events, and whether an uncaught
exception has aborted the cycle. -/
structure St where
  cache : Cache
  updated : Bool
  events : List Event
  aborted : Bool
deriving DecidableEq

/-- One step of the inner loop over the fetched category list: skip the
candidate when the names differ, else compute the limit via
`get_time_difference`, call `set_torrent_seed_limits` (the apply step),
write the cache entry and set the `updated` flag.  The source has no
break, so the fold continues past a match. -/
def processOriginal (cfg : Config) (now : ℤ) (t original_torrent : Torrent)
    (s : St) : St :=
  if original_torrent.name ≠ t.name then s
  else
    let stl := get_time_difference original_torrent.added_on t.added_on
      original_torrent.seeding_time_limit
    let rl := original_torrent.ratio_limit.getD (-1)
    { s with
      events := s.events ++ [Event.applyLimits t.hash stl rl]
        ++ set_torrent_seed_limits t.hash stl rl cfg.dryRun
        ++ [Event.cacheWrite t.hash],
      cache := cache_torrent t.hash now s.cache,
      updated := true }

/-- Processing of one tagged torrent in `main`: skip when freshly
cached; a `ValueError` from a stored timestamp aborts the cycle; fetch
the base-category list; a `None` fetch result aborts the cycle (the
source iterates the result unguarded, raising `TypeError`); otherwise
fold the inner loop over the fetched list. -/
def processTorrent (gw : Gateway) (cfg : Config) (now : ℤ) (s : St)
    (t : Torrent) : St :=
  if s.aborted then s
  else
    match is_torrent_cached cfg.cacheExpiryDays t.hash s.cache now with
    | .error _ => { s with aborted := true }
    | .ok true => s
    | .ok false =>
      let bc := baseCategory t.category
      let s1 : St := { s with events := s.events ++ [Event.categoryFetch bc] }
      match gw.byCategory bc with
      | none => { s1 with aborted := true }
      | some original_torrents =>
        original_torrents.foldl (fun s2 o => processOriginal cfg now t o s2) s1

/-- Processing of one tag in `main`: fetch by tag; a falsy result
(`None` or the empty list) skips the inner loop; then, when the cycle
has not aborted and the cumulative `updated` flag is still false, emit
the "No torrents updated" notice. -/
def processTag (gw : Gateway) (cfg : Config) (now : ℤ) (s : St)
    (tag : String) : St :=
  if s.aborted then s
  else
    let s1 : St := { s with events := s.events ++ [Event.taggedFetch tag] }
    let s2 : St :=
      match gw.byTag tag with
      | none => s1
      | some cross_seed_torrents =>
        if cross_seed_torrents.isEmpty then s1
        else cross_seed_torrents.foldl (processTorrent gw cfg now) s1
    if s2.aborted then s2
    else if s2.updated then s2
    else { s2 with events := s2.events ++ [Event.noticeNoUpdates] }

/-- One cycle of `main`: log in, read the cache, initialize the
cumulative `updated` flag, then fold over the configured tags. -/
def main (gw : Gateway) (cfg : Config) (f : CacheFile) (now : ℤ) : St :=
  cfg.tagNames.foldl (processTag gw cfg now)
    { cache := read_cache f, updated := false,
      events := [Event.loginAttempt], aborted := false }

/-- Count of apply-step calls for a given hash in an event list. -/
def countApply (h : String) (evs : List Event) : ℕ :=
  evs.countP fun e =>
    match e with
    | .applyLimits h2 _ _ => h2 == h
    | _ => false

/-- Count of cache writes for a given hash in an event list. -/
def countCacheWrite (h : String) (evs : List Event) : ℕ :=
  evs.countP fun e =>
    match e with
    | .cacheWrite h2 => h2 == h
    | _ => false

/-- Count of "No torrents updated" notices in an event list. -/
def countNotice (evs : List Event) : ℕ :=
  evs.countP fun e =>
    match e with
    | .noticeNoUpdates => true
    | _ => false

/-- Scenario: one tagged cross-seed whose base category holds two
torrents with the same name (different seeding-time limits). -/
def gw2c : Gateway :=
  ⟨fun tg => if tg == "t" then
      some [⟨"x", "n", "movies.cross", "up", 0, 0, none⟩] else none,
   fun ctg => if ctg == "movies" then
      some [⟨"o1", "n", "movies", "up", 0, 100, none⟩,
            ⟨"o2", "n", "movies", "up", 0, 200, some 2⟩] else none⟩

/-- Configuration for the duplicate-name scenario. -/
def cfg2c : Config := ⟨["t"], false, 14⟩

/-- Scenario: two tags; the category fetch fails (returns the `None`
sentinel) while the first tag's cross-seed is being processed. -/
def gw3 : Gateway :=
  ⟨fun tg => if tg == "t1" then
      some [⟨"x", "n", "movies.cross", "up", 0, 0, none⟩]
    else if tg == "t2" then some [] else none,
   fun _ => none⟩

/-- Configuration for the failing-category-fetch scenario. -/
def cfg3 : Config := ⟨["t1", "t2"], false, 14⟩

/-- Scenario for the no-match skip: the fetched category list holds one
torrent whose name differs from the cross-seed's. -/
def gwW5 : Gateway :=
  ⟨fun _ => none,
   fun ctg => if ctg == "movies" then
      some [⟨"o1", "m", "movies", "up", 0, 100, none⟩] else none⟩

/-- Configuration for the no-match scenario. -/
def cfgW5 : Config := ⟨["t"], false, 14⟩

/-- The cross-seed torrent of the no-match scenario. -/
def tW5 : Torrent := ⟨"x", "n", "movies.cross", "up", 0, 0, none⟩

/-- Initial state of the no-match scenario. -/
def sW5 : St := ⟨[], false, [], false⟩

/-- Configuration for the dry-run scenario (dry-run flag set). -/
def cfgW6 : Config := ⟨["t"], true, 14⟩

/-- Cross-seed torrent of the dry-run scenario. -/
def tW6 : Torrent := ⟨"x", "n", "movies.cross", "up", 0, 0, none⟩

/-- Matching original of the dry-run scenario. -/
def oW6 : Torrent := ⟨"o1", "n", "movies", "up", 0, 100, none⟩

/-- Initial state of the dry-run scenario. -/
def sW6 : St := ⟨[], false, [], false⟩

/-- Gateway for the dry-run scenario's re-run. -/
def gwW6 : Gateway := ⟨fun _ => none, fun _ => none⟩

/-- Re-run state of the dry-run scenario: the cache produced by the
dry-run apply, nothing else. -/
def s2W6 : St := ⟨(processOriginal cfgW6 0 tW6 oW6 sW6).cache, false, [], false⟩

/-- Gateway of the cumulative-flag scenario: the later tag yields
nothing. -/
def gwW8 : Gateway := ⟨fun _ => none, fun _ => none⟩

/-- Configuration of the cumulative-flag scenario. -/
def cfgW8 : Config := ⟨["t"], false, 14⟩

/-- State entering a later tag after an earlier tag already produced an
update (cumulative flag set). -/
def sW8 : St := ⟨[], true, [], false⟩

/-- Scenario for the unlimited-sentinel arithmetic: the matched original
has seeding_time_limit -1 and added-on instant o; the cross-seed was
added at instant c. -/
def gw10 (o c : ℤ) : Gateway :=
  ⟨fun tg => if tg == "t" then
      some [⟨"x", "n", "movies.cross", "up", c, 0, none⟩] else none,
   fun ctg => if ctg == "movies" then
      some [⟨"o1", "n", "movies", "up", o, -1, none⟩] else none⟩

/-- Configuration of the unlimited-sentinel scenario. -/
def cfg10 : Config := ⟨["t"], false, 14⟩

/-- Claim C1: the Limit Calculator returns the rounded minute difference
between the original's expiry boundary and the cross-seed's added-on
instant when positive, and the sentinel -1 when zero or negative; in
particular (0, 0, 100) yields 100 and (0, 6000, 100) yields -1. -/
theorem claim1 (o c l : ℤ) :
    (0 < pyRound60 (o + 60 * l - c) →
      get_time_difference o c l = pyRound60 (o + 60 * l - c)) ∧
    (pyRound60 (o + 60 * l - c) ≤ 0 → get_time_difference o c l = -1) ∧
    get_time_difference 0 0 100 = 100 ∧ get_time_difference 0 6000 100 = -1 := by
  refine ⟨fun h => ?_, fun h => ?_, by decide, by decide⟩
  · simp only [get_time_difference]
    rw [if_neg (by omega)]
  · simp only [get_time_difference]
    rw [if_pos h]

/-- Witness for claim C1 at the spec's two example inputs. -/
theorem claim1_witness :
    get_time_difference 0 0 100 = pyRound60 (0 + 60 * 100 - 0) ∧
    get_time_difference 0 6000 100 = -1 :=
  ⟨(claim1 0 0 100).1 (by decide), (claim1 0 6000 100).2.1 (by decide)⟩

/-- Claim C9: on every input, get_time_difference returns either the
sentinel -1 or a strictly positive integer — never 0 and never any
other negative value. -/
theorem claim9 (o c l : ℤ) :
    get_time_difference o c l = -1 ∨ 0 < get_time_difference o c l := by
  simp only [get_time_difference]
  split
  · exact Or.inl rfl
  · next hn => exact Or.inr (by omega)

/-- Claim C4: the freshness check returns true iff an entry for the hash
exists (with a parseable timestamp) and now is strictly before the
entry's timestamp plus the expiry window; exactly at the boundary it
returns false. -/
theorem claim4 (days : ℤ) (hsh : String) (c : Cache) (now : ℤ) :
    (is_torrent_cached days hsh c now = .ok true ↔
      ∃ ts, c.lookup hsh = some (CacheVal.valid ts) ∧ now < ts + 86400 * days) ∧
    ∀ ts, c.lookup hsh = some (CacheVal.valid ts) →
      is_torrent_cached days hsh c (ts + 86400 * days) = .ok false := by
  constructor
  · cases hl : c.lookup hsh with
    | none => simp [is_torrent_cached, hl]
    | some v =>
      cases v with
      | invalid s => simp [is_torrent_cached, hl, fromisoformat]
      | valid t0 =>
        simp only [is_torrent_cached, hl, fromisoformat]
        split
        · next hlt => simp_all
        · next hlt => simp_all
  · intro t0 hl
    simp only [is_torrent_cached, hl, fromisoformat]
    rw [if_neg (lt_irrefl _)]

/-- Witness for claim C4: a one-entry cache queried inside the window
and exactly at the boundary. -/
theorem claim4_witness :
    (is_torrent_cached 14 "a" [("a", CacheVal.valid 0)] 5 = .ok true ↔
      ∃ ts, List.lookup "a" [("a", CacheVal.valid 0)] = some (CacheVal.valid ts) ∧
        (5 : ℤ) < ts + 86400 * 14) ∧
    is_torrent_cached 14 "a" [("a", CacheVal.valid 0)] (0 + 86400 * 14) = .ok false :=
  ⟨(claim4 14 "a" [("a", CacheVal.valid 0)] 5).1,
   (claim4 14 "a" [("a", CacheVal.valid 0)] 5).2 0 (by decide)⟩

/-- Claim C7: a missing or undecodable backing cache file loads as the
empty cache, and every freshness query on that loaded cache returns
false without raising. -/
theorem claim7 (f : CacheFile)
    (hf : f = CacheFile.missing ∨ f = CacheFile.undecodable) :
    read_cache f = [] ∧
    ∀ days hsh now, is_torrent_cached days hsh (read_cache f) now = .ok false := by
  rcases hf with h | h <;> subst h <;> exact ⟨rfl, fun _ _ _ => rfl⟩

/-- Witness for claim C7 at both failure shapes of the backing file. -/
theorem claim7_witness :
    read_cache CacheFile.missing = [] ∧
    is_torrent_cached 14 "a" (read_cache CacheFile.missing) 0 = .ok false ∧
    read_cache CacheFile.undecodable = [] ∧
    is_torrent_cached 14 "a" (read_cache CacheFile.undecodable) 0 = .ok false :=
  ⟨(claim7 CacheFile.missing (Or.inl rfl)).1,
   (claim7 CacheFile.missing (Or.inl rfl)).2 14 "a" 0,
   (claim7 CacheFile.undecodable (Or.inr rfl)).1,
   (claim7 CacheFile.undecodable (Or.inr rfl)).2 14 "a" 0⟩

/-- A candidate whose name differs from the cross-seed's is skipped by
the inner loop, leaving the state untouched. -/
theorem processOriginal_skip (cfg : Config) (now : ℤ) (t o : Torrent) (s : St)
    (h : o.name ≠ t.name) : processOriginal cfg now t o s = s := by
  simp only [processOriginal]
  rw [if_pos h]

/-- When no fetched candidate's name matches, the inner loop over the
category list is the identity on the state. -/
theorem foldl_processOriginal_no_match (cfg : Config) (now : ℤ) (t : Torrent)
    (L : List Torrent) (s : St) (hnone : ∀ o ∈ L, o.name ≠ t.name) :
    L.foldl (fun s2 o => processOriginal cfg now t o s2) s = s := by
  induction L generalizing s with
  | nil => rfl
  | cons o rest ih =>
    simp only [List.foldl_cons]
    rw [processOriginal_skip cfg now t o s (hnone o (List.mem_cons_self o rest))]
    exact ih s fun o2 ho2 => hnone o2 (List.mem_cons_of_mem o ho2)

/-- One inner-loop step adds exactly one apply call for the cross-seed's
hash when the names match, and none otherwise. -/
theorem countApply_processOriginal (cfg : Config) (now : ℤ) (t o : Torrent)
    (s : St) :
    countApply t.hash (processOriginal cfg now t o s).events =
      countApply t.hash s.events + (if o.name = t.name then 1 else 0) := by
  by_cases h : o.name = t.name
  · simp only [processOriginal]
    rw [if_neg (not_not_intro h)]
    cases hd : cfg.dryRun <;>
      simp [countApply, set_torrent_seed_limits, hd, List.countP_append,
        List.countP_cons, h]
  · rw [processOriginal_skip cfg now t o s h]
    simp [h]

/-- One inner-loop step adds exactly one cache write for the cross-seed's
hash when the names match, and none otherwise. -/
theorem countCacheWrite_processOriginal (cfg : Config) (now : ℤ) (t o : Torrent)
    (s : St) :
    countCacheWrite t.hash (processOriginal cfg now t o s).events =
      countCacheWrite t.hash s.events + (if o.name = t.name then 1 else 0) := by
  by_cases h : o.name = t.name
  · simp only [processOriginal]
    rw [if_neg (not_not_intro h)]
    cases hd : cfg.dryRun <;>
      simp [countCacheWrite, set_torrent_seed_limits, hd, List.countP_append,
        List.countP_cons, h]
  · rw [processOriginal_skip cfg now t o s h]
    simp [h]

/-- Claim C2 counterexample: with two fetched candidates sharing the
cross-seed's name, the cycle issues two apply calls and two cache writes
for the cross-seed — the second match is not ignored, and it applies a
different limit (200) than the first (100). -/
theorem claim2_counterexample :
    countApply "x" (main gw2c cfg2c CacheFile.missing 0).events = 2 ∧
    countCacheWrite "x" (main gw2c cfg2c CacheFile.missing 0).events = 2 ∧
    (main gw2c cfg2c CacheFile.missing 0).events =
      [Event.loginAttempt, Event.taggedFetch "t", Event.categoryFetch "movies",
       Event.applyLimits "x" 100 (-1), Event.postLimits "x" 100 (-1),
       Event.cacheWrite "x",
       Event.applyLimits "x" 200 2, Event.postLimits "x" 200 2,
       Event.cacheWrite "x"] := by decide

/-- Claim C2 as amended: the inner loop has no break, so every fetched
candidate whose name equals the cross-seed's name — not only the first —
triggers a limit computation, an apply call, and a cache write: the
number of apply calls and of cache writes each equals the number of
name-matching candidates. -/
theorem claim2_amended (cfg : Config) (now : ℤ) (t : Torrent) (L : List Torrent)
    (s : St) :
    countApply t.hash
        ((L.foldl (fun s2 o => processOriginal cfg now t o s2) s).events)
      = countApply t.hash s.events + (L.countP fun o => o.name == t.name) ∧
    countCacheWrite t.hash
        ((L.foldl (fun s2 o => processOriginal cfg now t o s2) s).events)
      = countCacheWrite t.hash s.events + (L.countP fun o => o.name == t.name) := by
  induction L generalizing s with
  | nil => simp
  | cons o rest ih =>
    simp only [List.foldl_cons, List.countP_cons]
    obtain ⟨ih1, ih2⟩ := ih (processOriginal cfg now t o s)
    rw [ih1, ih2, countApply_processOriginal, countCacheWrite_processOriginal]
    by_cases h : o.name = t.name
    · simp [h]
      constructor <;> omega
    · simp [h]

/-- Claim C3: when the category fetch returns the failure sentinel for
an uncached cross-seed, the cycle is aborted (the source iterates the
sentinel unguarded): no apply call or cache write happens for the
torrent, and the remaining tag is never processed — the iteration does
not continue. -/
theorem claim3 :
    (main gw3 cfg3 CacheFile.missing 0).aborted = true ∧
    Event.taggedFetch "t2" ∉ (main gw3 cfg3 CacheFile.missing 0).events ∧
    countApply "x" (main gw3 cfg3 CacheFile.missing 0).events = 0 ∧
    countCacheWrite "x" (main gw3 cfg3 CacheFile.missing 0).events = 0 ∧
    (main gw3 cfg3 CacheFile.missing 0).events =
      [Event.loginAttempt, Event.taggedFetch "t1", Event.categoryFetch "movies"] := by
  decide

/-- Claim C5: when no fetched candidate's name equals the cross-seed's
name, the torrent is skipped: the state is unchanged except for the
category-fetch event — no apply call, no cache write, no abort. -/
theorem claim5 (gw : Gateway) (cfg : Config) (now : ℤ) (t : Torrent)
    (L : List Torrent) (s : St)
    (hab : s.aborted = false)
    (hcache : is_torrent_cached cfg.cacheExpiryDays t.hash s.cache now = .ok false)
    (hfetch : gw.byCategory (baseCategory t.category) = some L)
    (hnone : ∀ o ∈ L, o.name ≠ t.name) :
    processTorrent gw cfg now s t =
      { s with events := s.events ++ [Event.categoryFetch (baseCategory t.category)] } := by
  simp only [processTorrent, hab, hcache, hfetch, Bool.false_eq_true, if_false]
  exact foldl_processOriginal_no_match cfg now t L _ hnone

/-- Witness for claim C5: a concrete one-candidate list whose name
differs from the cross-seed's. -/
theorem claim5_witness :
    processTorrent gwW5 cfgW5 0 sW5 tW5 =
      { sW5 with events := sW5.events ++ [Event.categoryFetch (baseCategory tW5.category)] } :=
  claim5 gwW5 cfgW5 0 tW5 [⟨"o1", "m", "movies", "up", 0, 100, none⟩] sW5 rfl
    rfl (by decide) (by decide)

/-- A dict-style replacement keeps the key and makes its looked-up value
the fresh timestamp. -/
theorem lookup_map_replace (h : String) (now : ℤ) :
    ∀ c : Cache, c.any (fun p => p.1 == h) = true →
      (c.map (fun p => if p.1 == h then (p.1, CacheVal.valid now) else p)).lookup h
        = some (CacheVal.valid now) := by
  intro c
  induction c with
  | nil => intro hmem; simp at hmem
  | cons p rest ih =>
    intro hmem
    by_cases hp : p.1 = h
    · have hpb : (p.1 == h) = true := beq_iff_eq.mpr hp
      rw [List.map_cons, if_pos hpb]
      simp only [List.lookup, beq_iff_eq.mpr hp.symm]
    · have hpb : (p.1 == h) = false := beq_eq_false_iff_ne.mpr hp
      have hhb : (h == p.1) = false := beq_eq_false_iff_ne.mpr (Ne.symm hp)
      simp only [List.any_cons, hpb, Bool.false_or] at hmem
      rw [List.map_cons, if_neg (by simp [hpb])]
      simp only [List.lookup, hhb]
      exact ih hmem

/-- Appending a fresh key to a cache without it makes the key's lookup
the appended value. -/
theorem lookup_append_single (h : String) (v : CacheVal) :
    ∀ c : Cache, c.any (fun p => p.1 == h) = false →
      (c ++ [(h, v)]).lookup h = some v := by
  intro c
  induction c with
  | nil => intro _; simp [List.lookup]
  | cons p rest ih =>
    intro hmem
    simp only [List.any_cons, Bool.or_eq_false_iff] at hmem
    have hhb : (h == p.1) = false := by
      rcases hmem with ⟨h1, _⟩
      exact beq_eq_false_iff_ne.mpr (Ne.symm (beq_eq_false_iff_ne.mp h1))
    simp only [List.cons_append, List.lookup, hhb]
    exact ih hmem.2

/-- After `cache_torrent`, the hash's looked-up value is the fresh
timestamp. -/
theorem lookup_cache_torrent (h : String) (now : ℤ) (c : Cache) :
    (cache_torrent h now c).lookup h = some (CacheVal.valid now) := by
  unfold cache_torrent
  by_cases hmem : c.any (fun p => p.1 == h) = true
  · rw [if_pos hmem]
    exact lookup_map_replace h now c hmem
  · have hmf : c.any (fun p => p.1 == h) = false := by
      cases hval : c.any (fun p => p.1 == h)
      · rfl
      · exact absurd hval hmem
    rw [if_neg (by simp [hmf])]
    exact lookup_append_single h (CacheVal.valid now) c hmf

/-- Claim C6: in dry-run mode the apply step emits no setShareLimits
POST, yet the cache entry is recorded with the fresh timestamp, so an
immediately re-run processing of the same torrent is skipped (state
unchanged) for any gateway and any dry-run flag on the re-run. -/
theorem claim6 (cfg : Config) (now : ℤ) (t o : Torrent) (s : St)
    (hdry : cfg.dryRun = true) (hname : o.name = t.name) :
    (processOriginal cfg now t o s).events =
      s.events ++ [Event.applyLimits t.hash
          (get_time_difference o.added_on t.added_on o.seeding_time_limit)
          (o.ratio_limit.getD (-1)),
        Event.cacheWrite t.hash] ∧
    (∀ hh st rl, Event.postLimits hh st rl ∉
      (processOriginal cfg now t o s).events.drop s.events.length) ∧
    (processOriginal cfg now t o s).cache.lookup t.hash = some (CacheVal.valid now) ∧
    (∀ gw cfg2 s2, 0 < cfg2.cacheExpiryDays →
      s2.cache = (processOriginal cfg now t o s).cache → s2.aborted = false →
      processTorrent gw cfg2 now s2 t = s2) := by
  have hca : (processOriginal cfg now t o s).cache = cache_torrent t.hash now s.cache := by
    simp only [processOriginal]
    rw [if_neg (not_not_intro hname)]
  have hev : (processOriginal cfg now t o s).events =
      s.events ++ [Event.applyLimits t.hash
          (get_time_difference o.added_on t.added_on o.seeding_time_limit)
          (o.ratio_limit.getD (-1)),
        Event.cacheWrite t.hash] := by
    simp only [processOriginal]
    rw [if_neg (not_not_intro hname)]
    simp [set_torrent_seed_limits, hdry]
  refine ⟨hev, ?_, ?_, ?_⟩
  · intro hh st rl
    rw [hev, List.drop_left]
    simp
  · rw [hca]
    exact lookup_cache_torrent t.hash now s.cache
  · intro gw cfg2 s2 hdays hc hab2
    have hcached : is_torrent_cached cfg2.cacheExpiryDays t.hash s2.cache now = .ok true := by
      unfold is_torrent_cached
      rw [hc, hca, lookup_cache_torrent]
      simp only [fromisoformat]
      rw [if_pos (by omega)]
    simp only [processTorrent, hab2, Bool.false_eq_true, if_false, hcached]

/-- Witness for claim C6: the dry-run scenario, applied once and then
re-processed against the resulting cache. -/
theorem claim6_witness :
    (processOriginal cfgW6 0 tW6 oW6 sW6).events =
      sW6.events ++ [Event.applyLimits tW6.hash
          (get_time_difference oW6.added_on tW6.added_on oW6.seeding_time_limit)
          (oW6.ratio_limit.getD (-1)),
        Event.cacheWrite tW6.hash] ∧
    (Event.postLimits "x" 100 (-1) ∉
      (processOriginal cfgW6 0 tW6 oW6 sW6).events.drop sW6.events.length) ∧
    (processOriginal cfgW6 0 tW6 oW6 sW6).cache.lookup tW6.hash = some (CacheVal.valid 0) ∧
    processTorrent gwW6 cfgW6 0 s2W6 tW6 = s2W6 :=
  ⟨(claim6 cfgW6 0 tW6 oW6 sW6 rfl rfl).1,
   (claim6 cfgW6 0 tW6 oW6 sW6 rfl rfl).2.1 "x" 100 (-1),
   (claim6 cfgW6 0 tW6 oW6 sW6 rfl rfl).2.2.1,
   (claim6 cfgW6 0 tW6 oW6 sW6 rfl rfl).2.2.2 gwW6 cfgW6 s2W6 (by decide) rfl rfl⟩


/-- One inner-loop step never emits the notice and never clears the
cumulative updated flag. -/
theorem tagInv_processOriginal (cfg : Config) (now : ℤ) (t o : Torrent) (s : St) :
    countNotice (processOriginal cfg now t o s).events = countNotice s.events ∧
    (s.updated = true → (processOriginal cfg now t o s).updated = true) := by
  by_cases h : o.name = t.name
  · simp only [processOriginal]
    rw [if_neg (not_not_intro h)]
    cases hd : cfg.dryRun <;>
      simp [countNotice, set_torrent_seed_limits, hd, List.countP_append,
        List.countP_cons]
  · rw [processOriginal_skip cfg now t o s h]
    exact ⟨rfl, id⟩

/-- The inner loop over the category list never emits the notice and
never clears the cumulative updated flag. -/
theorem tagInv_foldOriginals (cfg : Config) (now : ℤ) (t : Torrent) :
    ∀ (L : List Torrent) (s : St),
      countNotice ((L.foldl (fun s2 o => processOriginal cfg now t o s2) s).events)
        = countNotice s.events ∧
      (s.updated = true →
        (L.foldl (fun s2 o => processOriginal cfg now t o s2) s).updated = true) := by
  intro L
  induction L with
  | nil => intro s; exact ⟨rfl, id⟩
  | cons o rest ih =>
    intro s
    simp only [List.foldl_cons]
    obtain ⟨h1, h2⟩ := ih (processOriginal cfg now t o s)
    obtain ⟨g1, g2⟩ := tagInv_processOriginal cfg now t o s
    exact ⟨h1.trans g1, fun hu => h2 (g2 hu)⟩

/-- Processing one tagged torrent never emits the notice and never
clears the cumulative updated flag. -/
theorem tagInv_processTorrent (gw : Gateway) (cfg : Config) (now : ℤ) (s : St)
    (t : Torrent) :
    countNotice (processTorrent gw cfg now s t).events = countNotice s.events ∧
    (s.updated = true → (processTorrent gw cfg now s t).updated = true) := by
  simp only [processTorrent]
  by_cases hab : s.aborted = true
  · rw [if_pos hab]
    exact ⟨rfl, id⟩
  · rw [if_neg hab]
    rcases hc : is_torrent_cached cfg.cacheExpiryDays t.hash s.cache now with e | b
    · exact ⟨rfl, id⟩
    · cases b
      · rcases hf : gw.byCategory (baseCategory t.category) with _ | L
        · exact ⟨by simp [countNotice, List.countP_append], id⟩
        · obtain ⟨h1, h2⟩ := tagInv_foldOriginals cfg now t L
            { s with events := s.events ++ [Event.categoryFetch (baseCategory t.category)] }
          exact ⟨h1.trans (by simp [countNotice, List.countP_append]), fun hu => h2 hu⟩
      · exact ⟨rfl, id⟩

/-- The loop over a tag's torrents never emits the notice and never
clears the cumulative updated flag. -/
theorem tagInv_foldTorrents (gw : Gateway) (cfg : Config) (now : ℤ) :
    ∀ (ts : List Torrent) (s : St),
      countNotice ((ts.foldl (processTorrent gw cfg now) s).events) = countNotice s.events ∧
      (s.updated = true → (ts.foldl (processTorrent gw cfg now) s).updated = true) := by
  intro ts
  induction ts with
  | nil => intro s; exact ⟨rfl, id⟩
  | cons t rest ih =>
    intro s
    simp only [List.foldl_cons]
    obtain ⟨h1, h2⟩ := ih (processTorrent gw cfg now s t)
    obtain ⟨g1, g2⟩ := tagInv_processTorrent gw cfg now s t
    exact ⟨h1.trans g1, fun hu => h2 (g2 hu)⟩

/-- The end-of-tag check: the notice is appended exactly when the cycle
has not aborted and the cumulative updated flag is still false. -/
theorem noticeStep (s s2 : St)
    (hn : countNotice s2.events = countNotice s.events)
    (hu : s.updated = true → s2.updated = true) :
    (s.updated = true →
      (if s2.aborted then s2
       else if s2.updated then s2
       else { s2 with events := s2.events ++ [Event.noticeNoUpdates] }).updated = true) ∧
    countNotice
        (if s2.aborted then s2
         else if s2.updated then s2
         else { s2 with events := s2.events ++ [Event.noticeNoUpdates] }).events =
      countNotice s.events +
        (if (if s2.aborted then s2
             else if s2.updated then s2
             else { s2 with events := s2.events ++ [Event.noticeNoUpdates] }).aborted = false ∧
            (if s2.aborted then s2
             else if s2.updated then s2
             else { s2 with events := s2.events ++ [Event.noticeNoUpdates] }).updated = false
         then 1 else 0) := by
  cases hav : s2.aborted with
  | true =>
    constructor
    · intro hup
      simp only [hav, if_true]
      exact hu hup
    · simp [hav, hn]
  | false =>
    cases huv : s2.updated with
    | true =>
      constructor
      · intro _
        simp [hav, huv]
      · simp [hav, huv, hn]
    | false =>
      constructor
      · intro hup
        exact absurd (hu hup) (by simp [huv])
      · have hstep : countNotice (s2.events ++ [Event.noticeNoUpdates])
            = countNotice s2.events + 1 := by
          simp [countNotice, List.countP_append]
        simp [hav, huv, hstep, hn]

/-- Claim C8: the "no torrents updated" notice is governed by the
single cumulative updated flag: processing a tag never clears the flag
set by an earlier tag, and the notice is appended after a tag's inner
loop exactly when the cycle has not aborted and no update has occurred
anywhere in the cycle so far. -/
theorem claim8 (gw : Gateway) (cfg : Config) (now : ℤ) (tag : String) (s : St) :
    (s.updated = true → (processTag gw cfg now s tag).updated = true) ∧
    countNotice (processTag gw cfg now s tag).events =
      countNotice s.events +
        (if (processTag gw cfg now s tag).aborted = false ∧
            (processTag gw cfg now s tag).updated = false then 1 else 0) := by
  by_cases hab : s.aborted = true
  · simp only [processTag]
    rw [if_pos hab]
    exact ⟨id, by simp [hab]⟩
  · simp only [processTag]
    rw [if_neg hab]
    rcases hbt : gw.byTag tag with _ | ts
    · simp only [hbt]
      exact noticeStep s { s with events := s.events ++ [Event.taggedFetch tag] }
        (by simp [countNotice, List.countP_append]) (fun hup => hup)
    · simp only [hbt]
      have hif : (if ts.isEmpty then
            ({ s with events := s.events ++ [Event.taggedFetch tag] } : St)
          else ts.foldl (processTorrent gw cfg now)
            { s with events := s.events ++ [Event.taggedFetch tag] }) =
          ts.foldl (processTorrent gw cfg now)
            { s with events := s.events ++ [Event.taggedFetch tag] } := by
        cases ts
        · rfl
        · rfl
      rw [hif]
      obtain ⟨h1, h2⟩ := tagInv_foldTorrents gw cfg now ts
        { s with events := s.events ++ [Event.taggedFetch tag] }
      exact noticeStep s
        (ts.foldl (processTorrent gw cfg now)
          { s with events := s.events ++ [Event.taggedFetch tag] })
        (h1.trans (by simp [countNotice, List.countP_append]))
        (fun hup => h2 hup)

/-- Witness for claim C8: a later tag yielding nothing while the
cumulative flag is already set emits no notice. -/
theorem claim8_witness :
    (processTag gwW8 cfgW8 0 sW8 "t").updated = true ∧
    countNotice (processTag gwW8 cfgW8 0 sW8 "t").events =
      countNotice sW8.events +
        (if (processTag gwW8 cfgW8 0 sW8 "t").aborted = false ∧
            (processTag gwW8 cfgW8 0 sW8 "t").updated = false then 1 else 0) :=
  ⟨(claim8 gwW8 cfgW8 0 "t" sW8).1 rfl, (claim8 gwW8 cfgW8 0 "t" sW8).2⟩

/-- Claim C10: the calculator treats the original's unlimited sentinel
-1 as a literal duration of minus one minute: whenever the rounded
minute difference of (originalAddedOn - 1 minute - crossAddedOn) is
positive, that positive finite limit is returned and the cycle applies
it to the cross-seed via the setShareLimits POST, even though the
original is unlimited. -/
theorem claim10 (o c : ℤ) (h : 0 < pyRound60 (o - 60 - c)) :
    get_time_difference o c (-1) = pyRound60 (o - 60 - c) ∧
    (main (gw10 o c) cfg10 CacheFile.missing 0).events =
      [Event.loginAttempt, Event.taggedFetch "t", Event.categoryFetch "movies",
       Event.applyLimits "x" (pyRound60 (o - 60 - c)) (-1),
       Event.postLimits "x" (pyRound60 (o - 60 - c)) (-1),
       Event.cacheWrite "x"] := by
  have harith : o + 60 * (-1) - c = o - 60 - c := by ring
  have h1 : get_time_difference o c (-1) = pyRound60 (o - 60 - c) := by
    simp only [get_time_difference, harith]
    rw [if_neg (by omega)]
  refine ⟨h1, ?_⟩
  have hbc : baseCategory "movies.cross" = "movies" := by decide
  simp [main, processTag, processTorrent, processOriginal, read_cache,
    is_torrent_cached, List.lookup, hbc, gw10, cfg10,
    set_torrent_seed_limits, h1]

/-- Witness for claim C10: the original added 101 minutes after the
cross-seed; the cross-seed receives the finite limit 100. -/
theorem claim10_witness :
    0 < pyRound60 (6060 - 60 - 0) ∧
    (get_time_difference 6060 0 (-1) = pyRound60 (6060 - 60 - 0) ∧
     (main (gw10 6060 0) cfg10 CacheFile.missing 0).events =
       [Event.loginAttempt, Event.taggedFetch "t", Event.categoryFetch "movies",
        Event.applyLimits "x" (pyRound60 (6060 - 60 - 0)) (-1),
        Event.postLimits "x" (pyRound60 (6060 - 60 - 0)) (-1),
        Event.cacheWrite "x"]) :=
  ⟨by decide, claim10 6060 0 (by decide)⟩

end Script
